import Mathlib

/-!
Shallow embedding of the jpegxl-rs decoder core (`src/decode.rs`) for
specification checking.

The external codec engine (libjxl, reached through FFI in the source) is a
black box: we model it as an `Engine` record of responses, plus a list of
per-`JxlDecoderProcessInput`-call steps, each carrying the status the engine
returns and the bytes it writes into the currently registered JPEG
reconstruction buffer.  The decode loop of `JxlDecoder::decode_internal` is
embedded as a structurally recursive function over that step list, threading
the same mutable state the Rust function holds (`basic_info`, `pixel_format`,
`icc_profile`, `buffer`, `jpeg_buffer`, `jpeg_reconstructed`).

Rust `MaybeUninit` reads are modelled with `Option`: a read of a
never-initialized value produces the distinguished outcome `uninitRead`
(undefined behavior in the source).  The unguarded `usize` subtraction
`jpeg_buffer.len() - remaining` is modelled with an explicit underflow
outcome `usizeUnderflow` (a panic in debug builds).  Observable FFI calls
that the claims talk about (`JxlDecoderSetInput`, `JxlDecoderSetJPEGBuffer`,
`JxlDecoderReleaseJPEGBuffer`) are recorded in an `ApiCall` trace.
-/

/-- Status/event codes returned by the engine.  Modelled from the spec: the
enum itself lives in the external `jpegxl-sys` bindings crate, whose
`decoder.rs` is not among the sources; the listed codes are the ones the
spec's event table and `decode.rs`'s match arms name, plus the remaining
libjxl decoder status codes which all fall into the "any other code"
bucket. -/
inductive JxlDecoderStatus where
  | Success
  | Error
  | NeedMoreInput
  | NeedPreviewOutBuffer
  | NeedDcOutBuffer
  | NeedImageOutBuffer
  | JpegNeedMoreOutput
  | BasicInfo
  | Extensions
  | ColorEncoding
  | PreviewImage
  | Frame
  | DcImage
  | FullImage
  | JpegReconstruction
  deriving DecidableEq, Repr

/-- Embeds `JxlDataType` from `jpegxl-sys/src/bindings/common.rs`. -/
inductive JxlDataType where
  | Float
  | Boolean
  | Uint8
  | Uint16
  | Uint32
  | Float16
  deriving DecidableEq, Repr

/-- Embeds `JxlEndianness` from `jpegxl-sys/src/bindings/common.rs`
(re-exported as `crate::common::Endianness` in the decoder). -/
inductive JxlEndianness where
  | Native
  | Little
  | Big
  deriving DecidableEq, Repr

/-- Embeds `JxlPixelFormat` from `jpegxl-sys/src/bindings/common.rs`. -/
structure JxlPixelFormat where
  num_channels : Nat
  data_type : JxlDataType
  endianness : JxlEndianness
  align : Nat
  deriving DecidableEq, Repr

/-- Modelled from the spec: byte width of one sample of each data type
("bytes_per_sample"); the sizes are those of the corresponding C types in the
external bindings. -/
def bytesPerSample : JxlDataType → Nat
  | .Float => 4
  | .Boolean => 1
  | .Uint8 => 1
  | .Uint16 => 2
  | .Uint32 => 4
  | .Float16 => 2

/-- Basic information about the image.  Modelled from the spec: `JxlBasicInfo`
is declared in the external bindings crate; the decoder core only reads the
`xsize`, `ysize` and `orientation` fields (`decode.rs` lines 254-260), so only
those are modelled (orientation as a raw code). -/
structure JxlBasicInfo where
  xsize : Nat
  ysize : Nat
  orientation : Nat
  deriving DecidableEq, Repr

/-- Modelled from the spec: the closed error taxonomy of section 7.  The
`DecodeError` enum itself lives in `crate::errors`, which is not among the
sources (the in-tree `error.rs` is an older module that `decode.rs` does not
import); the four variants are exactly the ones the spec lists and
`decode.rs` constructs. -/
inductive DecodeError where
  | CannotCreateDecoder
  | GenericError (stage : String)
  | CannotReconstruct
  | UnknownStatus (code : JxlDecoderStatus)
  deriving DecidableEq, Repr

/-- Modelled from the spec: `crate::errors::check_dec_status` (not among the
sources).  Per the spec, a `Success` status is fine, an `Error` status becomes
a generic error carrying the stage label of the failing call, and any other
status becomes an unknown-status error carrying the raw code. -/
def check_dec_status (status : JxlDecoderStatus) (msg : String) :
    Except DecodeError Unit :=
  match status with
  | .Success => .ok ()
  | .Error => .error (.GenericError msg)
  | s => .error (.UnknownStatus s)

/-- Embeds `ResultInfo` from `decode.rs` (lines 46-57); `icc_profile` bytes as
naturals. -/
structure ResultInfo where
  width : Nat
  height : Nat
  orientation : Nat
  num_channels : Nat
  icc_profile : List Nat
  deriving DecidableEq, Repr

/-- Embeds the `Data<T>` union of `decode.rs` (lines 147-150) as a proper sum
type: exactly one of the pixel buffer and the reconstructed JPEG buffer is
valid for a given decode call.  Samples and bytes are modelled as naturals. -/
inductive DataBuf where
  | pixels (buf : List Nat)
  | jpeg (buf : List Nat)
  deriving DecidableEq, Repr

/-- Outcome of a run of `decode_internal`.  `ok`/`err` are the two sides of
the Rust `Result`; `uninitRead` marks a read of a never-initialized
`MaybeUninit` (undefined behavior), `usizeUnderflow` marks the unsigned
subtraction underflow in the truncation step (a panic in debug builds), and
`outOfFuel` means the modelled engine trace ended before a terminal status. -/
inductive RunOutcome where
  | ok (info : ResultInfo) (data : DataBuf)
  | err (e : DecodeError)
  | uninitRead
  | usizeUnderflow
  | outOfFuel
  deriving DecidableEq, Repr

/-- Observable FFI calls recorded during a run. -/
inductive ApiCall where
  | setInput (len : Nat)
  | setJpegBuffer (len : Nat)
  | releaseJpegBuffer (result : Nat)
  deriving DecidableEq, Repr

/-- One `JxlDecoderProcessInput` call of the black-box engine: the bytes it
writes into the currently registered JPEG output buffer (at its own running
write offset) before returning, and the status it returns. -/
structure EngineStep where
  jpegWrite : List Nat
  status : JxlDecoderStatus
  deriving DecidableEq, Repr

/-- Black-box model of the engine: the statuses its FFI entry points return,
the values it reports for the size/info queries, the successive return values
of `JxlDecoderReleaseJPEGBuffer`, and the per-`ProcessInput`-call steps. -/
structure Engine where
  setRunnerStatus : JxlDecoderStatus
  subscribeStatus : JxlDecoderStatus
  setOrientationStatus : JxlDecoderStatus
  setInputStatus : JxlDecoderStatus
  getBasicInfoStatus : JxlDecoderStatus
  basicInfoVal : JxlBasicInfo
  iccSizeStatus : JxlDecoderStatus
  iccSize : Nat
  iccContent : List Nat
  iccGetStatus : JxlDecoderStatus
  imageOutSizeStatus : JxlDecoderStatus
  imageOutSize : Nat
  setImageOutStatus : JxlDecoderStatus
  setJpegBufferStatus : JxlDecoderStatus
  releaseResults : List Nat
  steps : List EngineStep
  deriving DecidableEq, Repr

/-- An engine whose every FFI entry point reports `Success` and whose queries
all report zero/empty; concrete engines are built by updating its fields. -/
def engineOk : Engine :=
  { setRunnerStatus := .Success
    subscribeStatus := .Success
    setOrientationStatus := .Success
    setInputStatus := .Success
    getBasicInfoStatus := .Success
    basicInfoVal := { xsize := 0, ysize := 0, orientation := 0 }
    iccSizeStatus := .Success
    iccSize := 0
    iccContent := []
    iccGetStatus := .Success
    imageOutSizeStatus := .Success
    imageOutSize := 0
    setImageOutStatus := .Success
    setJpegBufferStatus := .Success
    releaseResults := []
    steps := [] }

/-- Embeds the configured `JxlDecoder` session of `decode.rs` (lines 63-97).
The opaque native handle is `Unit` (non-null by construction, see `_build`);
the borrowed parallel-runner and memory-manager capabilities are modelled as
optional unit tokens. -/
structure JxlDecoder where
  dec : Unit
  num_channels : Nat
  endianness : JxlEndianness
  align : Nat
  keep_orientation : Bool
  init_jpeg_buffer : Nat
  parallel_runner : Option Unit
  mm_ref : Option Unit
  deriving DecidableEq, Repr

/-- Embeds `JxlDecoderBuilder` (derive_builder with `strip_option` setters:
each field is an `Option`, and `parallel_runner` is doubly optional). -/
structure JxlDecoderBuilder where
  num_channels : Option Nat
  endianness : Option JxlEndianness
  align : Option Nat
  keep_orientation : Option Bool
  init_jpeg_buffer : Option Nat
  parallel_runner : Option (Option Unit)
  deriving DecidableEq, Repr

/-- Embeds `decoder_builder()` (`decode.rs` lines 430-434): a builder with
every field unset. -/
def decoder_builder : JxlDecoderBuilder :=
  { num_channels := none, endianness := none, align := none,
    keep_orientation := none, init_jpeg_buffer := none, parallel_runner := none }

/-- Embeds `JxlDecoderBuilder::_build` (`decode.rs` lines 100-125).
`createOk` models whether the black-box `JxlDecoderCreate` call returned a
non-null handle. -/
def JxlDecoderBuilder._build (b : JxlDecoderBuilder) (memory_manager : Option Unit)
    (createOk : Bool) : Except DecodeError JxlDecoder :=
  if createOk then
    .ok { dec := ()
          num_channels := b.num_channels.getD 4
          endianness := b.endianness.getD .Native
          align := b.align.getD 0
          keep_orientation := b.keep_orientation.getD false
          init_jpeg_buffer := b.init_jpeg_buffer.getD 1024
          parallel_runner := b.parallel_runner.join
          mm_ref := memory_manager }
  else
    .error .CannotCreateDecoder

/-- Embeds `JxlDecoderBuilder::build` (`decode.rs` lines 131-133). -/
def JxlDecoderBuilder.build (b : JxlDecoderBuilder) (createOk : Bool) :
    Except DecodeError JxlDecoder :=
  JxlDecoderBuilder._build b none createOk

/-- Embeds `JxlDecoderBuilder::build_with` (`decode.rs` lines 139-144). -/
def JxlDecoderBuilder.build_with (b : JxlDecoderBuilder) (mm : Unit)
    (createOk : Bool) : Except DecodeError JxlDecoder :=
  JxlDecoderBuilder._build b (some mm) createOk

/-- Overwrite `buf` starting at index `off` with the bytes of `chunk`,
clipped to `buf`'s length: models the black-box engine writing through the
registered raw pointer into a buffer of fixed length. -/
def writeBytes : List Nat → Nat → List Nat → List Nat
  | [], _, _ => []
  | b :: rest, 0, [] => b :: rest
  | _ :: rest, 0, c :: cs => c :: writeBytes rest 0 cs
  | b :: rest, o + 1, cs => b :: writeBytes rest o cs

/-- Embeds `jpeg_buffer.resize(old_len + need_to_write, 0)` (`decode.rs` line
221): `Vec::resize` to a larger length keeps every existing element and
appends zeros. -/
def jpegGrow (buf : List Nat) (need_to_write : Nat) : List Nat :=
  buf ++ List.replicate need_to_write 0

/-- Pop the next `JxlDecoderReleaseJPEGBuffer` return value from the engine's
response queue (0 if the modelled queue is exhausted). -/
def popRelease : List Nat → Nat × List Nat
  | [] => (0, [])
  | d :: q => (d, q)

/-- The local state of `decode_internal`'s drive loop (`decode.rs` lines
158-169), plus the engine-side bookkeeping the model needs: whether a JPEG
buffer is currently registered, the engine's running write offset into it,
and the engine's remaining release-value queue. -/
structure LoopState where
  basic_info : Option JxlBasicInfo
  pixel_format : Option JxlPixelFormat
  icc_profile : List Nat
  buffer : List Nat
  jpeg_buffer : List Nat
  jpeg_reconstructed : Bool
  jpegRegistered : Bool
  jpegOffset : Nat
  releaseQueue : List Nat
  deriving DecidableEq, Repr

/-- Apply the engine's write of `chunk` into the registered JPEG buffer (a
no-op when no buffer is registered). -/
def engineWrite (st : LoopState) (chunk : List Nat) : LoopState :=
  if st.jpegRegistered then
    { st with
        jpeg_buffer := writeBytes st.jpeg_buffer st.jpegOffset chunk
        jpegOffset := min (st.jpegOffset + chunk.length) st.jpeg_buffer.length }
  else st

/-- Embeds `JxlDecoder::setup_decoder` (`decode.rs` lines 279-311): register
the parallel runner if present, subscribe to the event set, configure the
orientation policy.  The subscribed-event bitmask is handed to the black-box
engine and does not come back to the core, so it is not modelled beyond the
call's status. -/
def setup_decoder (eng : Engine) (dec : JxlDecoder) (_reconstruct_jpeg : Bool) :
    Except DecodeError Unit :=
  match (match dec.parallel_runner with
         | some _ => check_dec_status eng.setRunnerStatus "Set parallel runner"
         | none => Except.ok ()) with
  | .error e => .error e
  | .ok _ =>
    match check_dec_status eng.subscribeStatus "Subscribe events" with
    | .error e => .error e
    | .ok _ => check_dec_status eng.setOrientationStatus "Set if keep orientation"

/-- Embeds `JxlDecoder::get_basic_info` (`decode.rs` lines 313-335): check the
`JxlDecoderGetBasicInfo` status, then build the pixel format descriptor from
the session configuration and the compile-time sample type `dt`. -/
def get_basic_info (eng : Engine) (dec : JxlDecoder) (dt : JxlDataType) :
    Except DecodeError (JxlBasicInfo × JxlPixelFormat) :=
  match check_dec_status eng.getBasicInfoStatus "Get basic info" with
  | .error e => .error e
  | .ok _ =>
    .ok (eng.basicInfoVal,
      { num_channels := dec.num_channels
        data_type := dt
        endianness := dec.endianness
        align := dec.align })

/-- Embeds `JxlDecoder::get_icc_profile` (`decode.rs` lines 337-370): query
the profile size, allocate exactly that many zero bytes, fetch the profile
(the engine fills the buffer through the pointer), shrink to fit. -/
def get_icc_profile (eng : Engine) (_format : JxlPixelFormat) :
    Except DecodeError (List Nat) :=
  match check_dec_status eng.iccSizeStatus "Get ICC profile size" with
  | .error e => .error e
  | .ok _ =>
    let icc_size := eng.iccSize
    let icc_profile := List.replicate icc_size 0
    match check_dec_status eng.iccGetStatus "Get ICC profile" with
    | .error e => .error e
    | .ok _ => .ok (writeBytes icc_profile 0 eng.iccContent)

/-- Embeds `JxlDecoder::output` (`decode.rs` lines 372-395): query the
required output buffer size, allocate a buffer of that many default-valued
(zero) samples, register it with the engine, shrink to fit. -/
def output (eng : Engine) (_pixel_format : JxlPixelFormat) :
    Except DecodeError (List Nat) :=
  match check_dec_status eng.imageOutSizeStatus "Get output buffer size" with
  | .error e => .error e
  | .ok _ =>
    let size := eng.imageOutSize
    let buffer := List.replicate size 0
    match check_dec_status eng.setImageOutStatus "Set output buffer" with
    | .error e => .error e
    | .ok _ => .ok buffer

/-- Embeds the drive loop of `decode_internal` (`decode.rs` lines 181-276),
one engine step per list element.  Each iteration first lets the engine write
into the registered JPEG buffer (modelling the work `JxlDecoderProcessInput`
does), then branches on the returned status exactly as the Rust `match`
does.  Returns the outcome together with the trace of observable FFI calls
made by the loop. -/
def runLoop (eng : Engine) (dec : JxlDecoder) (dt : JxlDataType)
    (reconstruct_jpeg : Bool) :
    List EngineStep → LoopState → RunOutcome × List ApiCall
  | [], _ => (.outOfFuel, [])
  | step :: rest, st0 =>
    let st := engineWrite st0 step.jpegWrite
    match step.status with
    | .Error => (.err (.GenericError "Process input"), [])
    | .BasicInfo =>
      match get_basic_info eng dec dt with
      | .error e => (.err e, [])
      | .ok (bi, pf) =>
        runLoop eng dec dt reconstruct_jpeg rest
          { st with basic_info := some bi, pixel_format := some pf }
    | .ColorEncoding =>
      match st.pixel_format with
      | none => (.uninitRead, [])
      | some pf =>
        match get_icc_profile eng pf with
        | .error e => (.err e, [])
        | .ok icc =>
          runLoop eng dec dt reconstruct_jpeg rest { st with icc_profile := icc }
    | .JpegReconstruction =>
      let st1 := { st with jpeg_reconstructed := true }
      match check_dec_status eng.setJpegBufferStatus "In JPEG reconstruction event" with
      | .error e => (.err e, [.setJpegBuffer st1.jpeg_buffer.length])
      | .ok _ =>
        let r :=
          runLoop eng dec dt reconstruct_jpeg rest { st1 with jpegRegistered := true }
        (r.1, .setJpegBuffer st1.jpeg_buffer.length :: r.2)
    | .JpegNeedMoreOutput =>
      let need_to_write := (popRelease st.releaseQueue).1
      let q := (popRelease st.releaseQueue).2
      let grown := jpegGrow st.jpeg_buffer need_to_write
      match check_dec_status eng.setJpegBufferStatus
          "In JPEG need more output event, set without releasing" with
      | .error e =>
        (.err e, [.releaseJpegBuffer need_to_write, .setJpegBuffer grown.length])
      | .ok _ =>
        let r :=
          runLoop eng dec dt reconstruct_jpeg rest
            { st with jpeg_buffer := grown, releaseQueue := q, jpegRegistered := true }
        (r.1, .releaseJpegBuffer need_to_write :: .setJpegBuffer grown.length :: r.2)
    | .NeedImageOutBuffer =>
      match st.pixel_format with
      | none => (.uninitRead, [])
      | some pf =>
        match output eng pf with
        | .error e => (.err e, [])
        | .ok buf =>
          runLoop eng dec dt reconstruct_jpeg rest { st with buffer := buf }
    | .FullImage => runLoop eng dec dt reconstruct_jpeg rest st
    | .Success =>
      if reconstruct_jpeg then
        if !st.jpeg_reconstructed then
          (.err .CannotReconstruct, [])
        else
          let remaining := (popRelease st.releaseQueue).1
          if st.jpeg_buffer.length < remaining then
            (.usizeUnderflow, [.releaseJpegBuffer remaining])
          else
            let finalJpeg := st.jpeg_buffer.take (st.jpeg_buffer.length - remaining)
            match st.basic_info, st.pixel_format with
            | some info, some pf =>
              (.ok { width := info.xsize, height := info.ysize,
                     orientation := info.orientation,
                     num_channels := pf.num_channels,
                     icc_profile := st.icc_profile }
                 (.jpeg finalJpeg),
               [.releaseJpegBuffer remaining])
            | _, _ => (.uninitRead, [.releaseJpegBuffer remaining])
      else
        match st.basic_info, st.pixel_format with
        | some info, some pf =>
          (.ok { width := info.xsize, height := info.ysize,
                 orientation := info.orientation,
                 num_channels := pf.num_channels,
                 icc_profile := st.icc_profile }
             (.pixels st.buffer),
           [])
        | _, _ => (.uninitRead, [])
    | s => (.err (.UnknownStatus s), [])

/-- The loop state at entry of the drive loop (`decode.rs` lines 158-169): in
reconstruction mode the JPEG scratch buffer starts as `init_jpeg_buffer`
zero bytes. -/
def initState (eng : Engine) (dec : JxlDecoder) (reconstruct_jpeg : Bool) : LoopState :=
  { basic_info := none
    pixel_format := none
    icc_profile := []
    buffer := []
    jpeg_buffer := if reconstruct_jpeg then List.replicate dec.init_jpeg_buffer 0 else []
    jpeg_reconstructed := false
    jpegRegistered := false
    jpegOffset := 0
    releaseQueue := eng.releaseResults }

/-- Embeds `JxlDecoder::decode_internal` (`decode.rs` lines 153-277): set up
the decoder, hand it the entire input buffer once, then drive the loop. -/
def decode_internal (eng : Engine) (dec : JxlDecoder) (dt : JxlDataType)
    (data : List Nat) (reconstruct_jpeg : Bool) : RunOutcome × List ApiCall :=
  match setup_decoder eng dec reconstruct_jpeg with
  | .error e => (.err e, [])
  | .ok _ =>
    match check_dec_status eng.setInputStatus "Set input" with
    | .error e => (.err e, [.setInput data.length])
    | .ok _ =>
      let r :=
        runLoop eng dec dt reconstruct_jpeg eng.steps (initState eng dec reconstruct_jpeg)
      (r.1, .setInput data.length :: r.2)

/-- Embeds `JxlDecoder::decode` (`decode.rs` lines 402-408): pixel-mode
decode, `reconstruct_jpeg` false. -/
def decode (eng : Engine) (dec : JxlDecoder) (dt : JxlDataType) (data : List Nat) :
    RunOutcome × List ApiCall :=
  decode_internal eng dec dt data false

/-- Embeds `JxlDecoder::decode_jpeg` (`decode.rs` lines 415-421):
reconstruction-mode decode, always with `u8` samples. -/
def decode_jpeg (eng : Engine) (dec : JxlDecoder) (data : List Nat) :
    RunOutcome × List ApiCall :=
  decode_internal eng dec .Uint8 data true

/-! ### Basic lemmas about the buffer operations -/

theorem writeBytes_length (buf : List Nat) :
    ∀ (off : Nat) (chunk : List Nat), (writeBytes buf off chunk).length = buf.length := by
  induction buf with
  | nil => intro off chunk; simp [writeBytes]
  | cons b rest ih =>
    intro off chunk
    cases off with
    | zero =>
      cases chunk with
      | nil => simp [writeBytes]
      | cons c cs => simp [writeBytes, ih]
    | succ o => simp [writeBytes, ih]

theorem writeBytes_nil (buf : List Nat) : ∀ (off : Nat), writeBytes buf off [] = buf := by
  induction buf with
  | nil => intro off; simp [writeBytes]
  | cons b rest ih =>
    intro off
    cases off with
    | zero => simp [writeBytes]
    | succ o => simp [writeBytes, ih]

@[simp] theorem engineWrite_basic_info (st : LoopState) (c : List Nat) :
    (engineWrite st c).basic_info = st.basic_info := by
  unfold engineWrite; split <;> rfl

@[simp] theorem engineWrite_pixel_format (st : LoopState) (c : List Nat) :
    (engineWrite st c).pixel_format = st.pixel_format := by
  unfold engineWrite; split <;> rfl

@[simp] theorem engineWrite_icc_profile (st : LoopState) (c : List Nat) :
    (engineWrite st c).icc_profile = st.icc_profile := by
  unfold engineWrite; split <;> rfl

@[simp] theorem engineWrite_buffer (st : LoopState) (c : List Nat) :
    (engineWrite st c).buffer = st.buffer := by
  unfold engineWrite; split <;> rfl

@[simp] theorem engineWrite_jpeg_reconstructed (st : LoopState) (c : List Nat) :
    (engineWrite st c).jpeg_reconstructed = st.jpeg_reconstructed := by
  unfold engineWrite; split <;> rfl

@[simp] theorem engineWrite_jpegRegistered (st : LoopState) (c : List Nat) :
    (engineWrite st c).jpegRegistered = st.jpegRegistered := by
  unfold engineWrite; split <;> rfl

@[simp] theorem engineWrite_releaseQueue (st : LoopState) (c : List Nat) :
    (engineWrite st c).releaseQueue = st.releaseQueue := by
  unfold engineWrite; split <;> rfl

@[simp] theorem engineWrite_jpeg_len (st : LoopState) (c : List Nat) :
    (engineWrite st c).jpeg_buffer.length = st.jpeg_buffer.length := by
  unfold engineWrite; split
  · simp [writeBytes_length]
  · rfl

theorem check_dec_status_success (msg : String) :
    check_dec_status .Success msg = .ok () := rfl

/-- `output` hands the engine a zero-initialized buffer of exactly the
reported size whenever it succeeds. -/
theorem output_ok (eng : Engine) (pf : JxlPixelFormat) (b : List Nat)
    (h : output eng pf = .ok b) : b = List.replicate eng.imageOutSize 0 := by
  unfold output at h
  cases hsz : eng.imageOutSizeStatus <;> cases hset : eng.setImageOutStatus <;>
    simp_all [check_dec_status]

/-- The status codes that `decode_internal`'s `match` recognizes with a
dedicated arm (`decode.rs` lines 187-273); everything else falls into the
catch-all arm at line 274. -/
def recognized : JxlDecoderStatus → Bool
  | .Error => true
  | .BasicInfo => true
  | .ColorEncoding => true
  | .JpegReconstruction => true
  | .JpegNeedMoreOutput => true
  | .NeedImageOutBuffer => true
  | .FullImage => true
  | .Success => true
  | _ => false

/-- The decoder produced by `decoder_builder().build()` with no options set. -/
def decDefault : JxlDecoder :=
  { dec := (), num_channels := 4, endianness := .Native, align := 0,
    keep_orientation := false, init_jpeg_buffer := 1024,
    parallel_runner := none, mm_ref := none }

/-! ### Claims -/

/-- C7: `build()` and `build_with` fail with `CannotCreateDecoder` exactly
when the engine returns a null handle from `JxlDecoderCreate`; no other
validation happens at build time, so for every configuration the result is
either a decoder or exactly `CannotCreateDecoder`. -/
theorem jxl_C7 :
    (∀ (b : JxlDecoderBuilder) (c : Bool),
        JxlDecoderBuilder.build b c = .error DecodeError.CannotCreateDecoder ↔ c = false) ∧
    (∀ (b : JxlDecoderBuilder) (mm : Unit) (c : Bool),
        JxlDecoderBuilder.build_with b mm c = .error DecodeError.CannotCreateDecoder ↔
          c = false) ∧
    (∀ (b : JxlDecoderBuilder) (mm : Option Unit) (c : Bool) (e : DecodeError),
        JxlDecoderBuilder._build b mm c = .error e → e = DecodeError.CannotCreateDecoder) ∧
    (∀ (b : JxlDecoderBuilder) (mm : Option Unit),
        ∃ d, JxlDecoderBuilder._build b mm true = .ok d) := by
  refine ⟨?_, ?_, ?_, ?_⟩
  · intro b c
    cases c <;> simp [JxlDecoderBuilder.build, JxlDecoderBuilder._build]
  · intro b mm c
    cases c <;> simp [JxlDecoderBuilder.build_with, JxlDecoderBuilder._build]
  · intro b mm c e h
    cases c <;> simp_all [JxlDecoderBuilder._build]
  · intro b mm
    exact ⟨_, rfl⟩

/-- C7 witness: at a concrete builder, a null handle gives exactly
`CannotCreateDecoder` and a non-null handle gives a decoder. -/
theorem jxl_C7_witness :
    (JxlDecoderBuilder.build decoder_builder false =
      .error DecodeError.CannotCreateDecoder) ∧
    ∃ d, JxlDecoderBuilder._build decoder_builder none true = .ok d :=
  ⟨(jxl_C7.1 decoder_builder false).2 rfl, jxl_C7.2.2.2 decoder_builder none⟩

/-- C5: the error taxonomy is closed (every error a decode call or a build
can return is one of the four variants), an `Error` status from the advance
operation terminates the call with a generic error carrying the advance-stage
label "Process input", and any status outside the recognized set terminates
the call with an unknown-status error carrying the raw code. -/
theorem jxl_C5 :
    (∀ (eng : Engine) (dec : JxlDecoder) (dt : JxlDataType) (data : List Nat)
        (rj : Bool) (e : DecodeError),
        (decode_internal eng dec dt data rj).1 = .err e →
        e = DecodeError.CannotCreateDecoder ∨ (∃ s, e = DecodeError.GenericError s) ∨
        e = DecodeError.CannotReconstruct ∨ ∃ c, e = DecodeError.UnknownStatus c) ∧
    (∀ (b : JxlDecoderBuilder) (mm : Option Unit) (c : Bool) (e : DecodeError),
        JxlDecoderBuilder._build b mm c = .error e →
        e = DecodeError.CannotCreateDecoder ∨ (∃ s, e = DecodeError.GenericError s) ∨
        e = DecodeError.CannotReconstruct ∨ ∃ c, e = DecodeError.UnknownStatus c) ∧
    (∀ (eng : Engine) (dec : JxlDecoder) (dt : JxlDataType) (rj : Bool)
        (w : List Nat) (rest : List EngineStep) (st : LoopState),
        (runLoop eng dec dt rj (⟨w, .Error⟩ :: rest) st).1 =
          .err (DecodeError.GenericError "Process input")) ∧
    (∀ (s : JxlDecoderStatus), recognized s = false →
        ∀ (eng : Engine) (dec : JxlDecoder) (dt : JxlDataType) (rj : Bool)
          (w : List Nat) (rest : List EngineStep) (st : LoopState),
          (runLoop eng dec dt rj (⟨w, s⟩ :: rest) st).1 =
            .err (DecodeError.UnknownStatus s)) := by
  refine ⟨?_, ?_, ?_, ?_⟩
  · intro eng dec dt data rj e _
    cases e with
    | CannotCreateDecoder => exact .inl rfl
    | GenericError s => exact .inr (.inl ⟨s, rfl⟩)
    | CannotReconstruct => exact .inr (.inr (.inl rfl))
    | UnknownStatus c => exact .inr (.inr (.inr ⟨c, rfl⟩))
  · intro b mm c e _
    cases e with
    | CannotCreateDecoder => exact .inl rfl
    | GenericError s => exact .inr (.inl ⟨s, rfl⟩)
    | CannotReconstruct => exact .inr (.inr (.inl rfl))
    | UnknownStatus c => exact .inr (.inr (.inr ⟨c, rfl⟩))
  · intro eng dec dt rj w rest st
    simp [runLoop]
  · intro s hs eng dec dt rj w rest st
    cases s <;> simp_all [recognized, runLoop]

/-- C5 witness: concrete instances of each conjunct. -/
theorem jxl_C5_witness :
    (DecodeError.CannotReconstruct = DecodeError.CannotCreateDecoder ∨
      (∃ s, DecodeError.CannotReconstruct = DecodeError.GenericError s) ∨
      DecodeError.CannotReconstruct = DecodeError.CannotReconstruct ∨
      ∃ c, DecodeError.CannotReconstruct = DecodeError.UnknownStatus c) ∧
    (runLoop engineOk decDefault .Uint8 false [⟨[], .Error⟩]
        (initState engineOk decDefault false)).1 =
      .err (DecodeError.GenericError "Process input") ∧
    (runLoop engineOk decDefault .Uint8 false [⟨[], .NeedMoreInput⟩]
        (initState engineOk decDefault false)).1 =
      .err (DecodeError.UnknownStatus .NeedMoreInput) := by
  refine ⟨?_, ?_, ?_⟩
  · exact jxl_C5.1 { engineOk with steps := [⟨[], .BasicInfo⟩, ⟨[], .Success⟩] }
      decDefault .Uint8 [] true DecodeError.CannotReconstruct (by decide)
  · exact jxl_C5.2.2.1 engineOk decDefault .Uint8 false [] []
      (initState engineOk decDefault false)
  · exact jxl_C5.2.2.2 .NeedMoreInput rfl engineOk decDefault .Uint8 false [] []
      (initState engineOk decDefault false)

/-! ### The Success step in reconstruction mode -/

/-- On `Success` in reconstruction mode with reconstruction never started,
the loop fails with `CannotReconstruct` before touching any other state. -/
theorem runLoop_success_noRec (eng : Engine) (dec : JxlDecoder) (dt : JxlDataType)
    (w : List Nat) (rest : List EngineStep) (st : LoopState)
    (hrec : st.jpeg_reconstructed = false) :
    runLoop eng dec dt true (⟨w, .Success⟩ :: rest) st =
      (.err DecodeError.CannotReconstruct, []) := by
  simp [runLoop, hrec]

/-- On `Success` in reconstruction mode, when the engine reports a remaining
count larger than the current buffer, the unsigned subtraction underflows. -/
theorem runLoop_success_underflow (eng : Engine) (dec : JxlDecoder) (dt : JxlDataType)
    (w : List Nat) (rest : List EngineStep) (st : LoopState) (r : Nat) (q : List Nat)
    (hrec : st.jpeg_reconstructed = true) (hq : st.releaseQueue = r :: q)
    (hlt : st.jpeg_buffer.length < r) :
    runLoop eng dec dt true (⟨w, .Success⟩ :: rest) st =
      (.usizeUnderflow, [.releaseJpegBuffer r]) := by
  simp [runLoop, hrec, hq, popRelease, hlt]

/-- On `Success` in reconstruction mode with `remaining ≤` the buffer length,
the loop truncates the buffer by exactly `remaining` bytes from the end and
returns it (or hits the uninitialized reads if basic info was never
fetched). -/
theorem runLoop_success_rec (eng : Engine) (dec : JxlDecoder) (dt : JxlDataType)
    (w : List Nat) (rest : List EngineStep) (st : LoopState) (r : Nat) (q : List Nat)
    (hrec : st.jpeg_reconstructed = true) (hq : st.releaseQueue = r :: q)
    (hle : r ≤ st.jpeg_buffer.length) :
    runLoop eng dec dt true (⟨w, .Success⟩ :: rest) st =
      (match st.basic_info, st.pixel_format with
       | some info, some pf =>
         (.ok { width := info.xsize, height := info.ysize,
                orientation := info.orientation,
                num_channels := pf.num_channels,
                icc_profile := st.icc_profile }
            (.jpeg ((engineWrite st w).jpeg_buffer.take (st.jpeg_buffer.length - r))),
          [.releaseJpegBuffer r])
       | _, _ => (.uninitRead, [.releaseJpegBuffer r])) := by
  have hnl : ¬ (st.jpeg_buffer.length < r) := Nat.not_lt.mpr hle
  simp [runLoop, hrec, hq, popRelease, hnl]

/-- C10: the truncation amount is an unguarded unsigned subtraction
`jpeg_buffer.len() - remaining`; the Success step is total (never underflows)
exactly under the precondition that the engine reports `remaining` at most
the current buffer length, and a concrete engine reporting more drives the
subtraction into underflow. -/
theorem jxl_C10 :
    (∀ (eng : Engine) (dec : JxlDecoder) (dt : JxlDataType) (w : List Nat)
        (rest : List EngineStep) (st : LoopState) (r : Nat) (q : List Nat),
        st.jpeg_reconstructed = true → st.releaseQueue = r :: q →
        r ≤ st.jpeg_buffer.length →
        (runLoop eng dec dt true (⟨w, .Success⟩ :: rest) st).1 ≠ .usizeUnderflow) ∧
    (decode_jpeg
        { engineOk with
            releaseResults := [10]
            steps := [⟨[], .JpegReconstruction⟩, ⟨[], .Success⟩] }
        { decDefault with init_jpeg_buffer := 4 } []).1 = .usizeUnderflow := by
  constructor
  · intro eng dec dt w rest st r q hrec hq hle
    rw [runLoop_success_rec eng dec dt w rest st r q hrec hq hle]
    cases st.basic_info <;> cases st.pixel_format <;> simp
  · decide

/-- C10 witness: a concrete Success step with `remaining ≤ len` does not
underflow. -/
theorem jxl_C10_witness :
    (runLoop engineOk decDefault .Uint8 true [⟨[], .Success⟩]
        { basic_info := none, pixel_format := none, icc_profile := [],
          buffer := [], jpeg_buffer := [0, 0, 0], jpeg_reconstructed := true,
          jpegRegistered := false, jpegOffset := 0, releaseQueue := [2] }).1 ≠
      .usizeUnderflow :=
  jxl_C10.1 engineOk decDefault .Uint8 [] []
    { basic_info := none, pixel_format := none, icc_profile := [],
      buffer := [], jpeg_buffer := [0, 0, 0], jpeg_reconstructed := true,
      jpegRegistered := false, jpegOffset := 0, releaseQueue := [2] }
    2 [] rfl rfl (by decide)

/-- C4: on Success in reconstruction mode with reconstruction started, the
loop truncates the buffer by exactly the engine-reported unwritten remainder
from the end: the returned byte buffer has length `len - remaining` and the
buffer at Success is the returned buffer followed by exactly `remaining`
dropped bytes. -/
theorem jxl_C4 :
    ∀ (eng : Engine) (dec : JxlDecoder) (dt : JxlDataType) (w : List Nat)
      (rest : List EngineStep) (st : LoopState) (bi : JxlBasicInfo)
      (pf : JxlPixelFormat) (r : Nat) (q : List Nat),
      st.jpeg_reconstructed = true → st.basic_info = some bi →
      st.pixel_format = some pf → st.releaseQueue = r :: q →
      r ≤ st.jpeg_buffer.length →
      ∃ jb tail,
        (runLoop eng dec dt true (⟨w, .Success⟩ :: rest) st).1 =
          .ok { width := bi.xsize, height := bi.ysize, orientation := bi.orientation,
                num_channels := pf.num_channels, icc_profile := st.icc_profile }
            (.jpeg jb) ∧
        jb.length = st.jpeg_buffer.length - r ∧
        (engineWrite st w).jpeg_buffer = jb ++ tail ∧
        tail.length = r := by
  intro eng dec dt w rest st bi pf r q hrec hbi hpf hq hle
  have hlen : (engineWrite st w).jpeg_buffer.length = st.jpeg_buffer.length :=
    engineWrite_jpeg_len st w
  refine ⟨(engineWrite st w).jpeg_buffer.take (st.jpeg_buffer.length - r),
          (engineWrite st w).jpeg_buffer.drop (st.jpeg_buffer.length - r), ?_, ?_, ?_, ?_⟩
  · rw [runLoop_success_rec eng dec dt w rest st r q hrec hq hle, hbi, hpf]
  · rw [List.length_take, hlen]
    exact Nat.min_eq_left (Nat.sub_le _ _)
  · exact (List.take_append_drop _ _).symm
  · rw [List.length_drop, hlen, Nat.sub_sub_self hle]

/-- C4 witness: a concrete Success step truncating 2 of 5 bytes. -/
theorem jxl_C4_witness :
    ∃ jb tail,
      (runLoop engineOk decDefault .Uint8 true [⟨[], .Success⟩]
          { basic_info := some { xsize := 1, ysize := 1, orientation := 0 },
            pixel_format := some { num_channels := 4, data_type := .Uint8,
                                   endianness := .Native, align := 0 },
            icc_profile := [], buffer := [], jpeg_buffer := [5, 6, 7, 8, 9],
            jpeg_reconstructed := true, jpegRegistered := false,
            jpegOffset := 0, releaseQueue := [2] }).1 =
        .ok { width := 1, height := 1, orientation := 0, num_channels := 4,
              icc_profile := [] } (.jpeg jb) ∧
      jb.length = 5 - 2 ∧
      (engineWrite
          { basic_info := some { xsize := 1, ysize := 1, orientation := 0 },
            pixel_format := some { num_channels := 4, data_type := .Uint8,
                                   endianness := .Native, align := 0 },
            icc_profile := [], buffer := [], jpeg_buffer := [5, 6, 7, 8, 9],
            jpeg_reconstructed := true, jpegRegistered := false,
            jpegOffset := 0, releaseQueue := [2] } []).jpeg_buffer = jb ++ tail ∧
      tail.length = 2 :=
  jxl_C4 engineOk decDefault .Uint8 [] []
    { basic_info := some { xsize := 1, ysize := 1, orientation := 0 },
      pixel_format := some { num_channels := 4, data_type := .Uint8,
                             endianness := .Native, align := 0 },
      icc_profile := [], buffer := [], jpeg_buffer := [5, 6, 7, 8, 9],
      jpeg_reconstructed := true, jpegRegistered := false,
      jpegOffset := 0, releaseQueue := [2] }
    { xsize := 1, ysize := 1, orientation := 0 }
    { num_channels := 4, data_type := .Uint8, endianness := .Native, align := 0 }
    2 [] rfl rfl rfl rfl (by decide)

/-! ### Input feeding -/

/-- Recognizer for `JxlDecoderSetInput` entries of the call trace. -/
def isSetInput : ApiCall → Bool
  | .setInput _ => true
  | _ => false

/-- The drive loop never feeds the engine input: no `JxlDecoderSetInput` call
occurs in its trace. -/
theorem runLoop_no_setInput (eng : Engine) (dec : JxlDecoder) (dt : JxlDataType)
    (rj : Bool) :
    ∀ (steps : List EngineStep) (st : LoopState),
      ((runLoop eng dec dt rj steps st).2).countP isSetInput = 0 := by
  intro steps
  induction steps with
  | nil => intro st; simp [runLoop]
  | cons step rest ih =>
    intro st
    obtain ⟨w, s⟩ := step
    cases s
    all_goals simp only [runLoop]
    all_goals
      repeat' split
    all_goals simp [List.countP_cons, isSetInput, ih]

/-- C6: the whole input buffer is handed to the engine exactly once per
decode call — the trace never has more than one `JxlDecoderSetInput` call,
and when setup succeeds it has exactly one, carrying the full buffer length,
with none afterwards; and a need-more-input status from the advance
operation terminates the call with an error instead of feeding more bytes. -/
theorem jxl_C6 :
    (∀ (eng : Engine) (dec : JxlDecoder) (dt : JxlDataType) (data : List Nat)
        (rj : Bool),
        ((decode_internal eng dec dt data rj).2).countP isSetInput ≤ 1) ∧
    (∀ (eng : Engine) (dec : JxlDecoder) (dt : JxlDataType) (data : List Nat)
        (rj : Bool),
        setup_decoder eng dec rj = .ok () →
        ∃ l, (decode_internal eng dec dt data rj).2 = .setInput data.length :: l ∧
          l.countP isSetInput = 0) ∧
    (∀ (eng : Engine) (dec : JxlDecoder) (dt : JxlDataType) (rj : Bool)
        (w : List Nat) (rest : List EngineStep) (st : LoopState),
        (runLoop eng dec dt rj (⟨w, .NeedMoreInput⟩ :: rest) st).1 =
          .err (DecodeError.UnknownStatus .NeedMoreInput)) := by
  refine ⟨?_, ?_, ?_⟩
  · intro eng dec dt data rj
    cases hs : setup_decoder eng dec rj with
    | error e => simp [decode_internal, hs]
    | ok u =>
      cases hc : check_dec_status eng.setInputStatus "Set input" with
      | error e => simp [decode_internal, hs, hc, isSetInput]
      | ok u2 =>
        simp [decode_internal, hs, hc, List.countP_cons, isSetInput,
          runLoop_no_setInput]
  · intro eng dec dt data rj hsetup
    cases hc : check_dec_status eng.setInputStatus "Set input" with
    | error e =>
      exact ⟨[], by simp [decode_internal, hsetup, hc], by simp⟩
    | ok u =>
      refine ⟨(runLoop eng dec dt rj eng.steps (initState eng dec rj)).2, ?_,
        runLoop_no_setInput eng dec dt rj eng.steps (initState eng dec rj)⟩
      simp [decode_internal, hsetup, hc]
  · intro eng dec dt rj w rest st
    simp [runLoop]

/-- C6 witness: with a concrete three-byte input, the trace is exactly one
`setInput 3` call, and an immediate need-more-input status errors out. -/
theorem jxl_C6_witness :
    (∃ l, (decode_internal engineOk decDefault .Uint8 [0, 1, 2] false).2 =
        .setInput 3 :: l ∧ l.countP isSetInput = 0) ∧
    (runLoop engineOk decDefault .Uint8 false [⟨[], .NeedMoreInput⟩]
        (initState engineOk decDefault false)).1 =
      .err (DecodeError.UnknownStatus .NeedMoreInput) :=
  ⟨jxl_C6.2.1 engineOk decDefault .Uint8 [0, 1, 2] false rfl,
   jxl_C6.2.2 engineOk decDefault .Uint8 false [] []
     (initState engineOk decDefault false)⟩

/-! ### Reconstruction never started -/

/-- Event statuses that a conforming engine emits, before the terminal
Success, for a valid input that is not a wrapped legacy bitstream (metadata,
color encoding and full-image notifications). -/
def benignStat : JxlDecoderStatus → Bool
  | .BasicInfo => true
  | .ColorEncoding => true
  | .FullImage => true
  | _ => false

/-- In the given step list, a `BasicInfo` event comes before the first
`ColorEncoding` event (or there is no `ColorEncoding` event at all). -/
def basicBeforeColor : List EngineStep → Bool
  | [] => true
  | s :: rest =>
    match s.status with
    | .BasicInfo => true
    | .ColorEncoding => false
    | _ => basicBeforeColor rest

/-- Driving the loop in reconstruction mode through any benign event prefix
and then a `Success` status, with reconstruction never started, ends in
`CannotReconstruct`. -/
theorem runLoop_benign_noRec (eng : Engine) (dec : JxlDecoder) (dt : JxlDataType)
    (hbi : eng.getBasicInfoStatus = .Success) (hsz : eng.iccSizeStatus = .Success)
    (hget : eng.iccGetStatus = .Success) :
    ∀ (pre : List EngineStep) (w : List Nat) (rest : List EngineStep)
      (st : LoopState),
      (∀ s ∈ pre, benignStat s.status = true) →
      (st.pixel_format.isSome = true ∨ basicBeforeColor pre = true) →
      st.jpeg_reconstructed = false →
      (runLoop eng dec dt true (pre ++ ⟨w, .Success⟩ :: rest) st).1 =
        .err DecodeError.CannotReconstruct := by
  intro pre
  induction pre with
  | nil =>
    intro w rest st _ _ hrec
    simp [runLoop_success_noRec eng dec dt w rest st hrec]
  | cons s pre' ih =>
    intro w rest st hpre hord hrec
    obtain ⟨ws, stat⟩ := s
    have hb : benignStat stat = true := hpre _ (List.mem_cons_self _ _)
    cases stat
    case BasicInfo =>
      simp only [List.cons_append, runLoop, get_basic_info, hbi, check_dec_status]
      exact ih w rest _ (fun s hs => hpre s (List.mem_cons_of_mem _ hs))
        (.inl rfl) (by simpa using hrec)
    case ColorEncoding =>
      have hpf : st.pixel_format.isSome = true := by
        rcases hord with h | h
        · exact h
        · simp [basicBeforeColor] at h
      obtain ⟨pf, hpf⟩ := Option.isSome_iff_exists.mp hpf
      simp only [List.cons_append, runLoop, engineWrite_pixel_format, hpf,
        get_icc_profile, hsz, hget, check_dec_status]
      exact ih w rest _ (fun s hs => hpre s (List.mem_cons_of_mem _ hs))
        (.inl (by simp [hpf])) (by simpa using hrec)
    case FullImage =>
      simp only [List.cons_append, runLoop]
      refine ih w rest _ (fun s hs => hpre s (List.mem_cons_of_mem _ hs)) ?_
        (by simpa using hrec)
      rcases hord with h | h
      · exact .inl (by simpa using h)
      · exact .inr (by simpa [basicBeforeColor] using h)
    all_goals exact absurd hb (by decide)

/-- C3: when reconstruction is requested and the engine reaches `Success`
after emitting only benign events — never `JpegReconstruction` — the call
fails with exactly `CannotReconstruct`, which is distinct from every generic
error. -/
theorem jxl_C3 :
    ∀ (eng : Engine) (dec : JxlDecoder) (data : List Nat) (pre : List EngineStep)
      (w : List Nat) (rest : List EngineStep),
      eng.steps = pre ++ ⟨w, .Success⟩ :: rest →
      (∀ s ∈ pre, benignStat s.status = true) →
      basicBeforeColor pre = true →
      eng.getBasicInfoStatus = .Success → eng.iccSizeStatus = .Success →
      eng.iccGetStatus = .Success →
      setup_decoder eng dec true = .ok () → eng.setInputStatus = .Success →
      (decode_jpeg eng dec data).1 = .err DecodeError.CannotReconstruct ∧
      ∀ stage, DecodeError.CannotReconstruct ≠ DecodeError.GenericError stage := by
  intro eng dec data pre w rest hsteps hpre hord hbi hsz hget hsetup hsetin
  constructor
  · simp only [decode_jpeg, decode_internal, hsetup, hsetin, check_dec_status]
    rw [hsteps]
    exact runLoop_benign_noRec eng dec .Uint8 hbi hsz hget pre w rest _ hpre
      (.inr hord) rfl
  · intro stage h
    exact DecodeError.noConfusion h

/-- C3 witness: a concrete engine emitting `BasicInfo` then `Success` (never
`JpegReconstruction`) makes `decode_jpeg` fail with `CannotReconstruct`. -/
theorem jxl_C3_witness :
    (decode_jpeg
        { engineOk with steps := [⟨[], .BasicInfo⟩, ⟨[], .Success⟩] }
        decDefault []).1 = .err DecodeError.CannotReconstruct :=
  (jxl_C3 { engineOk with steps := [⟨[], .BasicInfo⟩, ⟨[], .Success⟩] }
    decDefault [] [⟨[], .BasicInfo⟩] [] [] rfl (by decide) rfl rfl rfl rfl rfl
    rfl).1

/-! ### Initialization before use -/

/-- In the given step list, a `BasicInfo` event comes before the first event
whose handler reads the stored basic info or pixel format (`ColorEncoding`,
`NeedImageOutBuffer`, or the `Success` finalizer). -/
def infoFirst : List EngineStep → Bool
  | [] => true
  | s :: rest =>
    match s.status with
    | .BasicInfo => true
    | .ColorEncoding => false
    | .NeedImageOutBuffer => false
    | .Success => false
    | _ => infoFirst rest

/-- If the stored basic info and pixel format are already initialized, or a
`BasicInfo` event precedes every event that reads them, the loop never
performs an uninitialized read. -/
theorem runLoop_no_uninit (eng : Engine) (dec : JxlDecoder) (dt : JxlDataType)
    (rj : Bool) :
    ∀ (steps : List EngineStep) (st : LoopState),
      ((st.basic_info.isSome = true ∧ st.pixel_format.isSome = true) ∨
        infoFirst steps = true) →
      (runLoop eng dec dt rj steps st).1 ≠ .uninitRead := by
  intro steps
  induction steps with
  | nil => intro st _; simp [runLoop]
  | cons step rest ih =>
    intro st h
    obtain ⟨w, s⟩ := step
    cases s
    case Error => simp [runLoop]
    case BasicInfo =>
      simp only [runLoop]
      cases hg : get_basic_info eng dec dt with
      | error e => simp
      | ok bp =>
        obtain ⟨bi, pf⟩ := bp
        simpa using ih _ (.inl (by simp))
    case ColorEncoding =>
      rcases h with ⟨h1, h2⟩ | h
      · obtain ⟨pf, hpf⟩ := Option.isSome_iff_exists.mp h2
        simp only [runLoop, engineWrite_pixel_format, hpf]
        cases hicc : get_icc_profile eng pf with
        | error e => simp
        | ok icc => simpa using ih _ (.inl (by simp [h1, hpf]))
      · simp [infoFirst] at h
    case NeedImageOutBuffer =>
      rcases h with ⟨h1, h2⟩ | h
      · obtain ⟨pf, hpf⟩ := Option.isSome_iff_exists.mp h2
        simp only [runLoop, engineWrite_pixel_format, hpf]
        cases hout : output eng pf with
        | error e => simp
        | ok buf => simpa using ih _ (.inl (by simp [h1, hpf]))
      · simp [infoFirst] at h
    case JpegReconstruction =>
      simp only [runLoop]
      cases hset : check_dec_status eng.setJpegBufferStatus
          "In JPEG reconstruction event" with
      | error e => simp
      | ok u =>
        refine fun hc => ih _ ?_ (by simpa using hc)
        rcases h with ⟨h1, h2⟩ | h
        · exact .inl (by simp [h1, h2])
        · exact .inr (by simpa [infoFirst] using h)
    case JpegNeedMoreOutput =>
      simp only [runLoop]
      cases hset : check_dec_status eng.setJpegBufferStatus
          "In JPEG need more output event, set without releasing" with
      | error e => simp
      | ok u =>
        refine fun hc => ih _ ?_ (by simpa using hc)
        rcases h with ⟨h1, h2⟩ | h
        · exact .inl (by simp [h1, h2])
        · exact .inr (by simpa [infoFirst] using h)
    case FullImage =>
      simp only [runLoop]
      refine ih _ ?_
      rcases h with ⟨h1, h2⟩ | h
      · exact .inl (by simp [h1, h2])
      · exact .inr (by simpa [infoFirst] using h)
    case Success =>
      rcases h with ⟨h1, h2⟩ | h
      · obtain ⟨bi, hbi⟩ := Option.isSome_iff_exists.mp h1
        obtain ⟨pf, hpf⟩ := Option.isSome_iff_exists.mp h2
        simp only [runLoop, engineWrite_basic_info, engineWrite_pixel_format,
          engineWrite_jpeg_reconstructed, hbi, hpf]
        repeat' split
        all_goals simp
      · simp [infoFirst] at h
    all_goals simp [runLoop]

/-- C9: the reads of the `MaybeUninit` basic info and pixel format in the
`ColorEncoding`, `NeedImageOutBuffer` and `Success` branches are safe exactly
under the precondition that a `BasicInfo` event precedes them: under that
precondition every decode run avoids the uninitialized-read outcome, while a
trace reaching `Success` with no prior `BasicInfo` hits it. -/
theorem jxl_C9 :
    (∀ (eng : Engine) (dec : JxlDecoder) (dt : JxlDataType) (data : List Nat)
        (rj : Bool),
        infoFirst eng.steps = true →
        (decode_internal eng dec dt data rj).1 ≠ .uninitRead) ∧
    (decode { engineOk with steps := [⟨[], .Success⟩] } decDefault .Uint8 []).1 =
      .uninitRead := by
  constructor
  · intro eng dec dt data rj h
    cases hs : setup_decoder eng dec rj with
    | error e => simp [decode_internal, hs]
    | ok u =>
      cases hc : check_dec_status eng.setInputStatus "Set input" with
      | error e => simp [decode_internal, hs, hc]
      | ok u2 =>
        simpa [decode_internal, hs, hc] using
          runLoop_no_uninit eng dec dt rj eng.steps (initState eng dec rj) (.inr h)
  · decide

/-- C9 witness: with `BasicInfo` before `Success`, a concrete run does not
hit the uninitialized read. -/
theorem jxl_C9_witness :
    (decode_internal { engineOk with steps := [⟨[], .BasicInfo⟩, ⟨[], .Success⟩] }
        decDefault .Uint8 [] false).1 ≠ .uninitRead :=
  jxl_C9.1 { engineOk with steps := [⟨[], .BasicInfo⟩, ⟨[], .Success⟩] }
    decDefault .Uint8 [] false rfl

/-! ### Initial JPEG buffer registration -/

/-- No `JpegNeedMoreOutput` event occurs before the first
`JpegReconstruction` event of the step list. -/
def noGrowBeforeRec : List EngineStep → Bool
  | [] => true
  | s :: rest =>
    match s.status with
    | .JpegReconstruction => true
    | .JpegNeedMoreOutput => false
    | _ => noGrowBeforeRec rest

/-- The length registered by the first `JxlDecoderSetJPEGBuffer` call of a
trace, if any. -/
def firstSetJpeg : List ApiCall → Option Nat
  | [] => none
  | .setJpegBuffer n :: _ => some n
  | _ :: l => firstSetJpeg l

/-- As long as no growth event precedes the first `JpegReconstruction`
event, the first JPEG buffer the loop registers with the engine is the
scratch buffer it entered with, at its original length. -/
theorem runLoop_firstSetJpeg (eng : Engine) (dec : JxlDecoder) (dt : JxlDataType)
    (rj : Bool) :
    ∀ (steps : List EngineStep) (st : LoopState) (L : Nat),
      st.jpeg_buffer.length = L →
      noGrowBeforeRec steps = true →
      firstSetJpeg (runLoop eng dec dt rj steps st).2 = none ∨
      firstSetJpeg (runLoop eng dec dt rj steps st).2 = some L := by
  intro steps
  induction steps with
  | nil => intro st L hL _; left; simp [runLoop, firstSetJpeg]
  | cons step rest ih =>
    intro st L hL hng
    obtain ⟨w, s⟩ := step
    cases s
    case Error => left; simp [runLoop, firstSetJpeg]
    case BasicInfo =>
      simp only [runLoop]
      split
      · left; simp [firstSetJpeg]
      · exact ih _ L (by simp [hL]) (by simpa [noGrowBeforeRec] using hng)
    case ColorEncoding =>
      simp only [runLoop]
      split
      · left; simp [firstSetJpeg]
      · split
        · left; simp [firstSetJpeg]
        · exact ih _ L (by simp [hL]) (by simpa [noGrowBeforeRec] using hng)
    case JpegReconstruction =>
      simp only [runLoop]
      split
      · right; simp [firstSetJpeg, hL]
      · right; simp [firstSetJpeg, hL]
    case JpegNeedMoreOutput => simp [noGrowBeforeRec] at hng
    case NeedImageOutBuffer =>
      simp only [runLoop]
      split
      · left; simp [firstSetJpeg]
      · split
        · left; simp [firstSetJpeg]
        · exact ih _ L (by simp [hL]) (by simpa [noGrowBeforeRec] using hng)
    case FullImage =>
      simp only [runLoop]
      exact ih _ L (by simp [hL]) (by simpa [noGrowBeforeRec] using hng)
    case Success =>
      left
      simp only [runLoop]
      repeat' split
      all_goals simp [firstSetJpeg]
    all_goals (left; simp [runLoop, firstSetJpeg])

set_option maxRecDepth 8192 in
/-- C8: a session built with no options set has exactly the documented
defaults (4 channels, native endianness, align 0, auto-rotation, 1 KiB
initial JPEG scratch buffer, no parallel runner), and in reconstruction mode
the buffer handed to the engine at the `JpegReconstruction` event is the
initial scratch buffer of length `init_jpeg_buffer`. -/
theorem jxl_C8 :
    (JxlDecoderBuilder.build decoder_builder true = .ok decDefault) ∧
    (∀ (eng : Engine) (dec : JxlDecoder) (data : List Nat),
        noGrowBeforeRec eng.steps = true →
        firstSetJpeg (decode_jpeg eng dec data).2 = none ∨
        firstSetJpeg (decode_jpeg eng dec data).2 = some dec.init_jpeg_buffer) ∧
    (firstSetJpeg (decode_jpeg
        { engineOk with steps := [⟨[], .JpegReconstruction⟩] }
        decDefault []).2 = some 1024) := by
  refine ⟨rfl, ?_, by decide⟩
  intro eng dec data hng
  cases hs : setup_decoder eng dec true with
  | error e => left; simp [decode_jpeg, decode_internal, hs, firstSetJpeg]
  | ok u =>
    cases hc : check_dec_status eng.setInputStatus "Set input" with
    | error e => left; simp [decode_jpeg, decode_internal, hs, hc, firstSetJpeg]
    | ok u2 =>
      have := runLoop_firstSetJpeg eng dec .Uint8 true eng.steps
        (initState eng dec true) dec.init_jpeg_buffer (by simp [initState]) hng
      simpa [decode_jpeg, decode_internal, hs, hc, firstSetJpeg, initState]
        using this

/-- C8 witness: with a trace whose first growth-free event is
`JpegReconstruction`, a concrete non-default decoder registers exactly its
configured 4-byte scratch buffer first. -/
theorem jxl_C8_witness :
    firstSetJpeg (decode_jpeg
        { engineOk with steps := [⟨[], .JpegReconstruction⟩] }
        { decDefault with init_jpeg_buffer := 4 } []).2 = none ∨
    firstSetJpeg (decode_jpeg
        { engineOk with steps := [⟨[], .JpegReconstruction⟩] }
        { decDefault with init_jpeg_buffer := 4 } []).2 = some 4 :=
  jxl_C8.2.1 { engineOk with steps := [⟨[], .JpegReconstruction⟩] }
    { decDefault with init_jpeg_buffer := 4 } [] rfl

/-! ### Pixel output buffer -/

/-- In the given step list, a `NeedImageOutBuffer` event occurs, and the
first one comes before any `Success` event. -/
def niobBeforeSuccess : List EngineStep → Bool
  | [] => false
  | s :: rest =>
    match s.status with
    | .NeedImageOutBuffer => true
    | .Success => false
    | _ => niobBeforeSuccess rest

/-- Once the pixel buffer holds the engine-sized zero-filled allocation, any
pixel-mode success returns exactly that buffer. -/
theorem runLoop_buffer_inv (eng : Engine) (dec : JxlDecoder) (dt : JxlDataType) :
    ∀ (steps : List EngineStep) (st : LoopState) (info : ResultInfo) (b : List Nat),
      st.buffer = List.replicate eng.imageOutSize 0 →
      (runLoop eng dec dt false steps st).1 = .ok info (.pixels b) →
      b = List.replicate eng.imageOutSize 0 := by
  intro steps
  induction steps with
  | nil => intro st info b hbuf hok; simp [runLoop] at hok
  | cons step rest ih =>
    intro st info b hbuf hok
    obtain ⟨w, s⟩ := step
    cases s
    case Error => simp [runLoop] at hok
    case BasicInfo =>
      simp only [runLoop] at hok
      split at hok
      · simp at hok
      · exact ih _ info b (by simp [hbuf]) hok
    case ColorEncoding =>
      simp only [runLoop] at hok
      split at hok
      · simp at hok
      · split at hok
        · simp at hok
        · exact ih _ info b (by simp [hbuf]) hok
    case JpegReconstruction =>
      simp only [runLoop] at hok
      split at hok
      · simp at hok
      · exact ih _ info b (by simp [hbuf]) hok
    case JpegNeedMoreOutput =>
      simp only [runLoop] at hok
      split at hok
      · simp at hok
      · exact ih _ info b (by simp [hbuf]) hok
    case NeedImageOutBuffer =>
      simp only [runLoop] at hok
      split at hok
      · simp at hok
      · split at hok
        · simp at hok
        · rename_i buf hout
          exact ih _ info b (by simp [output_ok eng _ buf hout]) hok
    case FullImage =>
      simp only [runLoop] at hok
      exact ih _ info b (by simp [hbuf]) hok
    case Success =>
      simp only [runLoop] at hok
      rw [if_neg (by simp)] at hok
      split at hok
      · simp_all
      · simp at hok
    all_goals simp [runLoop] at hok

/-- Any pixel-mode success on a trace whose `NeedImageOutBuffer` event comes
before `Success` returns the zero-initialized buffer of exactly the
engine-reported output size. -/
theorem runLoop_niob (eng : Engine) (dec : JxlDecoder) (dt : JxlDataType) :
    ∀ (steps : List EngineStep) (st : LoopState) (info : ResultInfo) (b : List Nat),
      niobBeforeSuccess steps = true →
      (runLoop eng dec dt false steps st).1 = .ok info (.pixels b) →
      b = List.replicate eng.imageOutSize 0 := by
  intro steps
  induction steps with
  | nil => intro st info b hn _; simp [niobBeforeSuccess] at hn
  | cons step rest ih =>
    intro st info b hn hok
    obtain ⟨w, s⟩ := step
    cases s
    case Error => simp [runLoop] at hok
    case BasicInfo =>
      simp only [runLoop] at hok
      split at hok
      · simp at hok
      · exact ih _ info b (by simpa [niobBeforeSuccess] using hn) hok
    case ColorEncoding =>
      simp only [runLoop] at hok
      split at hok
      · simp at hok
      · split at hok
        · simp at hok
        · exact ih _ info b (by simpa [niobBeforeSuccess] using hn) hok
    case JpegReconstruction =>
      simp only [runLoop] at hok
      split at hok
      · simp at hok
      · exact ih _ info b (by simpa [niobBeforeSuccess] using hn) hok
    case JpegNeedMoreOutput =>
      simp only [runLoop] at hok
      split at hok
      · simp at hok
      · exact ih _ info b (by simpa [niobBeforeSuccess] using hn) hok
    case NeedImageOutBuffer =>
      simp only [runLoop] at hok
      split at hok
      · simp at hok
      · split at hok
        · simp at hok
        · rename_i buf hout
          exact runLoop_buffer_inv eng dec dt rest _ info b
            (by simp [output_ok eng _ buf hout]) hok
    case FullImage =>
      simp only [runLoop] at hok
      exact ih _ info b (by simpa [niobBeforeSuccess] using hn) hok
    case Success => simp [niobBeforeSuccess] at hn
    all_goals simp [runLoop] at hok

/-- C1: every successful pixel-mode decode whose engine requested an output
buffer returns a buffer of exactly the engine-reported size — which equals
`width * height * num_channels * bytes_per_sample` whenever the engine
reports that size — and the buffer registered in response to
`NeedImageOutBuffer` is allocated zero-initialized at exactly that size. -/
theorem jxl_C1 :
    (∀ (eng : Engine) (dec : JxlDecoder) (dt : JxlDataType) (data : List Nat)
        (info : ResultInfo) (b : List Nat),
        niobBeforeSuccess eng.steps = true →
        (decode_internal eng dec dt data false).1 = .ok info (.pixels b) →
        b = List.replicate eng.imageOutSize 0 ∧
        b.length = eng.imageOutSize ∧
        (eng.imageOutSize =
            info.width * info.height * info.num_channels * bytesPerSample dt →
          b.length =
            info.width * info.height * info.num_channels * bytesPerSample dt)) ∧
    (∀ (eng : Engine) (pf : JxlPixelFormat) (b : List Nat),
        output eng pf = .ok b → b = List.replicate eng.imageOutSize 0) := by
  constructor
  · intro eng dec dt data info b hn hok
    have hb : b = List.replicate eng.imageOutSize 0 := by
      cases hs : setup_decoder eng dec false with
      | error e => simp [decode_internal, hs] at hok
      | ok u =>
        cases hc : check_dec_status eng.setInputStatus "Set input" with
        | error e => simp [decode_internal, hs, hc] at hok
        | ok u2 =>
          refine runLoop_niob eng dec dt eng.steps (initState eng dec false) info b hn ?_
          simpa [decode_internal, hs, hc] using hok
    have hlen : b.length = eng.imageOutSize := by simp [hb]
    exact ⟨hb, hlen, fun hsz => by rw [hlen, hsz]⟩
  · exact fun eng pf b h => output_ok eng pf b h

/-- C1 witness: a 2x2 RGBA8 engine reporting an output size of 16 bytes
yields a successful decode with a 16-sample zero-initialized buffer, equal to
`width * height * num_channels * bytes_per_sample`. -/
theorem jxl_C1_witness :
    List.replicate 16 (0 : Nat) = List.replicate 16 0 ∧
    (List.replicate 16 (0 : Nat)).length = 16 ∧
    (16 = 2 * 2 * 4 * bytesPerSample .Uint8 →
      (List.replicate 16 (0 : Nat)).length = 2 * 2 * 4 * bytesPerSample .Uint8) :=
  jxl_C1.1
    { engineOk with
        basicInfoVal := { xsize := 2, ysize := 2, orientation := 0 }
        imageOutSize := 16
        steps := [⟨[], .BasicInfo⟩, ⟨[], .NeedImageOutBuffer⟩,
                  ⟨[], .FullImage⟩, ⟨[], .Success⟩] }
    decDefault .Uint8 []
    { width := 2, height := 2, orientation := 0, num_channels := 4,
      icc_profile := [] }
    (List.replicate 16 0) rfl (by decide)

/-! ### Reconstruction buffer growth -/

/-- Driving the loop through a sequence of `JpegNeedMoreOutput` events grows
the registered JPEG buffer by exactly the engine-reported deficits: after
consuming deficits `ds` (with arbitrary engine writes `ws` into the buffer),
the loop continues on the remaining steps from a state whose buffer length
has grown by exactly `ds.sum`, with all other loop fields intact. -/
theorem runLoop_grow (eng : Engine) (dec : JxlDecoder) (dt : JxlDataType)
    (hset : eng.setJpegBufferStatus = .Success) :
    ∀ (ds : List Nat) (ws : List (List Nat)) (tail : List EngineStep)
      (st : LoopState) (rest0 : List Nat),
      ds.length = ws.length →
      st.jpegRegistered = true →
      st.releaseQueue = ds ++ rest0 →
      ∃ st' : LoopState,
        (runLoop eng dec dt true
            ((ds.zip ws).map
              (fun p => (⟨p.2, .JpegNeedMoreOutput⟩ : EngineStep)) ++ tail)
            st).1 =
          (runLoop eng dec dt true tail st').1 ∧
        st'.jpeg_buffer.length = st.jpeg_buffer.length + ds.sum ∧
        st'.releaseQueue = rest0 ∧
        st'.jpegRegistered = true ∧
        st'.basic_info = st.basic_info ∧
        st'.pixel_format = st.pixel_format ∧
        st'.jpeg_reconstructed = st.jpeg_reconstructed := by
  intro ds
  induction ds with
  | nil =>
    intro ws tail st rest0 _ hreg hq
    exact ⟨st, by simp, by simp, by simpa using hq, hreg, rfl, rfl, rfl⟩
  | cons d ds' ih =>
    intro ws tail st rest0 hlen hreg hq
    cases ws with
    | nil => simp at hlen
    | cons w ws' =>
      have hlen' : ds'.length = ws'.length := by simpa using hlen
      have hstep :
          (runLoop eng dec dt true
              (((d :: ds').zip (w :: ws')).map
                (fun p => (⟨p.2, .JpegNeedMoreOutput⟩ : EngineStep)) ++ tail)
              st).1 =
            (runLoop eng dec dt true
              ((ds'.zip ws').map
                (fun p => (⟨p.2, .JpegNeedMoreOutput⟩ : EngineStep)) ++ tail)
              { engineWrite st w with
                  jpeg_buffer := jpegGrow (engineWrite st w).jpeg_buffer d
                  releaseQueue := ds' ++ rest0
                  jpegRegistered := true }).1 := by
        simp [runLoop, hset, check_dec_status, hq, popRelease]
        rfl
      obtain ⟨st', h1, hlen2, hq2, hreg2, hbi2, hpf2, hrec2⟩ :=
        ih ws' tail
          { engineWrite st w with
              jpeg_buffer := jpegGrow (engineWrite st w).jpeg_buffer d
              releaseQueue := ds' ++ rest0
              jpegRegistered := true }
          rest0 hlen' rfl rfl
      refine ⟨st', hstep.trans h1, ?_, hq2, hreg2, ?_, ?_, ?_⟩
      · rw [hlen2]
        simp [jpegGrow]
        omega
      · simpa using hbi2
      · simpa using hpf2
      · simpa using hrec2

/-- A well-behaved reconstruction engine: it reports basic info, starts
reconstruction, asks for more output `ds.length` times with deficits `ds`
(writing arbitrary chunks `ws` into the registered buffer along the way),
then succeeds with `r` unwritten bytes left in the scratch buffer. -/
def growthEngine (bi : JxlBasicInfo) (ds : List Nat) (ws : List (List Nat))
    (r : Nat) : Engine :=
  { engineOk with
      basicInfoVal := bi
      releaseResults := ds ++ [r]
      steps := ⟨[], .BasicInfo⟩ :: ⟨[], .JpegReconstruction⟩ ::
        ((ds.zip ws).map
          (fun p => (⟨p.2, .JpegNeedMoreOutput⟩ : EngineStep)) ++
          [⟨[], .Success⟩]) }

/-- C2: on a run with `k = ds.length` growth events with engine-reported
deficits `ds` (and arbitrary engine writes), the reconstruction buffer's
length before the final truncation is exactly `init_jpeg_buffer + ds.sum`
(so the returned buffer has length `init_jpeg_buffer + ds.sum - r`), and each
growth step appends exactly the deficit in zero bytes, preserving every
previously written byte of the buffer. -/
theorem jxl_C2 :
    ∀ (bi : JxlBasicInfo) (ds : List Nat) (ws : List (List Nat)) (r : Nat)
      (dec : JxlDecoder) (data : List Nat),
      ds.length = ws.length →
      r ≤ dec.init_jpeg_buffer + ds.sum →
      (∃ info jb,
        (decode_jpeg (growthEngine bi ds ws r) dec data).1 = .ok info (.jpeg jb) ∧
        jb.length + r = dec.init_jpeg_buffer + ds.sum ∧
        jb.length = dec.init_jpeg_buffer + ds.sum - r) ∧
    (∀ (buf : List Nat) (d : Nat),
        jpegGrow buf d = buf ++ List.replicate d 0 ∧
        (jpegGrow buf d).length = buf.length + d ∧
        (jpegGrow buf d).take buf.length = buf) := by
  intro bi ds ws r dec data hlen hr
  constructor
  · have hsetup : setup_decoder (growthEngine bi ds ws r) dec true = .ok () := by
      cases hp : dec.parallel_runner <;>
        simp [setup_decoder, check_dec_status, hp, growthEngine, engineOk]
    have hsi : (growthEngine bi ds ws r).setInputStatus = .Success := rfl
    have hrun : (decode_jpeg (growthEngine bi ds ws r) dec data).1 =
        (runLoop (growthEngine bi ds ws r) dec .Uint8 true
          (growthEngine bi ds ws r).steps
          (initState (growthEngine bi ds ws r) dec true)).1 := by
      simp only [decode_jpeg, decode_internal, hsetup, hsi, check_dec_status]
    have hAB : (runLoop (growthEngine bi ds ws r) dec .Uint8 true
          (growthEngine bi ds ws r).steps
          (initState (growthEngine bi ds ws r) dec true)).1 =
        (runLoop (growthEngine bi ds ws r) dec .Uint8 true
          ((ds.zip ws).map
            (fun p => (⟨p.2, .JpegNeedMoreOutput⟩ : EngineStep)) ++
            [⟨[], .Success⟩])
          { basic_info := some bi
            pixel_format := some
              { num_channels := dec.num_channels, data_type := .Uint8,
                endianness := dec.endianness, align := dec.align }
            icc_profile := []
            buffer := []
            jpeg_buffer := List.replicate dec.init_jpeg_buffer 0
            jpeg_reconstructed := true
            jpegRegistered := true
            jpegOffset := 0
            releaseQueue := ds ++ [r] }).1 := by
      simp [growthEngine, engineOk, runLoop, initState, engineWrite,
        get_basic_info, check_dec_status]
    obtain ⟨st', h1, hlen2, hq2, hreg2, hbi2, hpf2, hrec2⟩ :=
      runLoop_grow (growthEngine bi ds ws r) dec .Uint8 rfl ds ws
        [⟨[], .Success⟩]
        { basic_info := some bi
          pixel_format := some
            { num_channels := dec.num_channels, data_type := .Uint8,
              endianness := dec.endianness, align := dec.align }
          icc_profile := []
          buffer := []
          jpeg_buffer := List.replicate dec.init_jpeg_buffer 0
          jpeg_reconstructed := true
          jpegRegistered := true
          jpegOffset := 0
          releaseQueue := ds ++ [r] }
        [r] hlen rfl rfl
    have hlenst : st'.jpeg_buffer.length = dec.init_jpeg_buffer + ds.sum := by
      simpa using hlen2
    have hle : r ≤ st'.jpeg_buffer.length := by rw [hlenst]; exact hr
    have hfin := runLoop_success_rec (growthEngine bi ds ws r) dec .Uint8 []
      [] st' r [] (by simpa using hrec2) hq2 hle
    rw [hbi2, hpf2] at hfin
    refine ⟨{ width := bi.xsize, height := bi.ysize, orientation := bi.orientation,
              num_channels := dec.num_channels, icc_profile := st'.icc_profile },
            (engineWrite st' []).jpeg_buffer.take (st'.jpeg_buffer.length - r),
            ?_, ?_, ?_⟩
    · rw [hrun, hAB, h1]
      exact congrArg Prod.fst hfin
    · have : ((engineWrite st' []).jpeg_buffer.take
          (st'.jpeg_buffer.length - r)).length = st'.jpeg_buffer.length - r := by
        rw [List.length_take, engineWrite_jpeg_len]
        exact Nat.min_eq_left (Nat.sub_le _ _)
      rw [this, hlenst, Nat.sub_add_cancel hr]
    · rw [List.length_take, engineWrite_jpeg_len, hlenst]
      exact Nat.min_eq_left (Nat.sub_le _ _)
  · intro buf d
    refine ⟨rfl, by simp [jpegGrow], ?_⟩
    simp [jpegGrow]

/-- C2 witness: two growth events with deficits 3 and 5 on a 4-byte initial
scratch buffer give a pre-truncation length of 12 and, with 2 unwritten
bytes, a returned buffer of 10 bytes. -/
theorem jxl_C2_witness :
    (∃ info jb,
      (decode_jpeg
          (growthEngine { xsize := 1, ysize := 1, orientation := 0 }
            [3, 5] [[9, 9], [7]] 2)
          { decDefault with init_jpeg_buffer := 4 } []).1 = .ok info (.jpeg jb) ∧
      jb.length + 2 = 4 + [3, 5].sum ∧
      jb.length = 4 + [3, 5].sum - 2) ∧
    (∀ (buf : List Nat) (d : Nat),
      jpegGrow buf d = buf ++ List.replicate d 0 ∧
      (jpegGrow buf d).length = buf.length + d ∧
      (jpegGrow buf d).take buf.length = buf) :=
  jxl_C2 { xsize := 1, ysize := 1, orientation := 0 } [3, 5] [[9, 9], [7]] 2
    { decDefault with init_jpeg_buffer := 4 } [] rfl (by decide)
